import Mathlib

/-!
Verification of the timelapse capture orchestration of `dremel3dpy`
(`dremel3dpy/camera.py`, `main.py`, `dremel3dpy/helpers/constants.py`).

The capture loop of `Dremel3D45Timelapse.start_timelapse` is embedded as a
fuel-bounded state machine.  External collaborators (the printer status API,
the OpenCV capture handle, the imageio writer, the stop flag set by
`stop_timelapse`) are modelled as an environment of response functions:

* `polls n` is the job status returned by the `n`-th
  `set_job_status(refresh=True)` call;
* `reads n` is the result of the `n`-th `cap.read()` call (`none` models
  `ret == False`, `some sz` models a frame with `np.size(frame) = sz`);
* `encode n` is the result of re-encoding the frame of the `n`-th read
  (`none` models an exception raised by the `cv2.imencode` /
  `imageio.imread` pipeline, `some b` a successful encode of `b` size
  units);
* `capOpen k` is the value of `cap.isOpened()` at loop iteration `k`;
* `stop k` is the value of `self._should_stop` after `k` completed
  `asyncio.sleep` suspension points (the flag only changes at awaits in the
  cooperative asyncio model; `stop_timelapse` sets it to `True`).

Wall-clock time is idealised as an exact nonnegative rational (`Frac`)
advanced by the nominal length of each sleep; status polls and frame reads
are instantaneous.  Python float arithmetic is replaced by exact fractions.
-/

namespace Dremel

/-- Nonnegative fractions with explicit numerator and denominator, used for
the wall-clock model (`datetime` arithmetic and float division in the
source).  Values are never normalised; comparisons cross-multiply. -/
structure Frac where
  num : Nat
  den : Nat
  deriving DecidableEq, Repr

/-- Cross-multiplied order on fractions: `a ≤ b`. -/
def Frac.le (a b : Frac) : Prop := a.num * b.den ≤ b.num * a.den

/-- Cross-multiplied strict order on fractions: `a < b`. -/
def Frac.lt (a b : Frac) : Prop := a.num * b.den < b.num * a.den

instance (a b : Frac) : Decidable (Frac.le a b) :=
  inferInstanceAs (Decidable (a.num * b.den ≤ b.num * a.den))

instance (a b : Frac) : Decidable (Frac.lt a b) :=
  inferInstanceAs (Decidable (a.num * b.den < b.num * a.den))

/-- Exact addition of fractions. -/
def Frac.add (a b : Frac) : Frac := ⟨a.num * b.den + b.num * a.den, a.den * b.den⟩

/-- The larger of two fractions, mirroring Python `max` on floats. -/
def Frac.fmax (a b : Frac) : Frac := if Frac.lt a b then b else a

/-- Value equality of fractions (equality of the represented rationals). -/
def Frac.eqv (a b : Frac) : Prop := a.num * b.den = b.num * a.den

instance (a b : Frac) : Decidable (Frac.eqv a b) :=
  inferInstanceAs (Decidable (a.num * b.den = b.num * a.den))

/-- Modelled from the spec: the job states of §3 of the spec.  The
`Dremel3DPrinter` class that derives these from raw status fields is not
part of the sources under verification (only `camera.py`, `main.py` and
`constants.py` are); the spec lists the states
`Idle | Preparing | Building | Pausing | Paused | Resuming | Completed |
Unknown`. -/
inductive JobState
  | idle
  | preparing
  | building
  | pausing
  | paused
  | resuming
  | completed
  | unknown
  deriving DecidableEq, Repr

/-- Modelled from the spec: `Dremel3DPrinter.is_busy` is not under the
verified sources.  Per the comment in `camera.py` ("the printer is printing
but not building (i.e, paused, pausing, resuming or preparing)") and §4.1
of the spec, a printer is busy exactly while a job is in progress. -/
def JobState.isBusy : JobState → Bool
  | .preparing => true
  | .building => true
  | .pausing => true
  | .paused => true
  | .resuming => true
  | _ => false

/-- Modelled from the spec: `Dremel3DPrinter.is_building` is not under the
verified sources; it reports exactly the `Building` state. -/
def JobState.isBuilding : JobState → Bool
  | .building => true
  | _ => false

/-- Modelled from the spec: `Dremel3DPrinter.is_completed` is not under the
verified sources; it reports exactly the `Completed` state. -/
def JobState.isCompleted : JobState → Bool
  | .completed => true
  | _ => false

/-- One polled job status: the derived state plus the total and remaining
time fields read by `get_total_time` / `get_remaining_time` (seconds,
`0` when unknown, per §4.1 of the spec). -/
structure Status where
  state : JobState
  totalTime : Nat
  remainingTime : Nat
  deriving DecidableEq, Repr

/-- The environment of external collaborators, as response functions. -/
structure Env where
  polls : Nat → Status
  reads : Nat → Option Nat
  encode : Nat → Option Nat
  capOpen : Nat → Bool
  stop : Nat → Bool

/-- Which loop of `start_timelapse` appended a frame: the main capture loop
(lines 80-96) or the post-completion grace loop (lines 99-107). -/
inductive Phase
  | main
  | grace
  deriving DecidableEq, Repr

/-- One frame appended by `writer.append_data`: the loop it came from, the
cached job state at the append, the iteration counter `k` (number of
completed sleeps), the index of the `cap.read()` call, and the encoded
size in size units. -/
structure AppendEvent where
  phase : Phase
  state : JobState
  k : Nat
  readIdx : Nat
  size : Nat
  deriving DecidableEq, Repr

/-- The mutable observable state of one `start_timelapse` invocation. -/
structure Session where
  pollCount : Nat
  readCount : Nat
  k : Nat
  cached : Status
  log : List AppendEvent
  streamOpened : Bool
  outputRemoved : Bool
  finalizeCount : Nat
  deriving Repr

/-- Embedding of `self._printer.set_job_status(refresh=True)`: consume the
next poll and cache its result (the `is_busy` / `is_building` /
`is_completed` getters read this cache). -/
def set_job_status (env : Env) (s : Session) : Session :=
  { s with cached := env.polls s.pollCount, pollCount := s.pollCount + 1 }

/-- Embedding of `Dremel3D45Timelapse._append_to_gif` (camera.py lines
29-36): read a frame; if `ret` and `np.size(frame) > 0`, re-encode and
append it.  The returned Bool is `false` when the encode pipeline raises
(the source has no try/except around it, so the exception propagates). -/
def _append_to_gif (env : Env) (ph : Phase) (s : Session) : Session × Bool :=
  match env.reads s.readCount with
  | none => ({ s with readCount := s.readCount + 1 }, true)
  | some 0 => ({ s with readCount := s.readCount + 1 }, true)
  | some (_ + 1) =>
    match env.encode s.readCount with
    | none => ({ s with readCount := s.readCount + 1 }, false)
    | some b =>
      ({ s with readCount := s.readCount + 1,
                log := s.log ++ [⟨ph, s.cached.state, s.k, s.readCount, b⟩] }, true)

/-- Embedding of camera.py lines 63-75: `total_time = max(get_total_time(),
get_remaining_time())`; if zero, substitute `60 * 60` seconds and log a
warning (the Bool component); `sleep_interval = total_time /
gif_total_frames`.  `none` models the `ZeroDivisionError` Python raises
when `gif_total_frames == 0`. -/
def computeSleepInterval (totalTime remainingTime gif_total_frames : Nat) :
    Option (Frac × Bool) :=
  let t := max totalTime remainingTime
  let p : Nat × Bool := if t = 0 then (60 * 60, true) else (t, false)
  if gif_total_frames = 0 then none
  else some (⟨p.1, gif_total_frames⟩, p.2)

/-- Embedding of the waiting loop, camera.py lines 55-61: while not stopped
and busy but not yet building, refresh the status and sleep.  The returned
Bool is `false` exactly when the fuel ran out. -/
def waitLoop (env : Env) : Nat → Session → Session × Bool
  | 0, s => (s, false)
  | fuel + 1, s =>
    if env.stop s.k = false ∧ s.cached.state.isBusy = true ∧
        s.cached.state.isBuilding = false then
      waitLoop env fuel { set_job_status env s with k := s.k + 1 }
    else (s, true)

/-- How the main capture loop ended. -/
inductive MainExit
  | normal (clock : Frac)
  | encodeError
  | fuelOut
  deriving Repr

/-- One body pass of the main capture loop (camera.py lines 92-96), after
the periodic status refresh: append a frame while the cached state is
building (`Sum.inl` models the encode exception propagating out of
`_append_to_gif`), then sleep for the pacing interval (`k` advances, the
clock advances by `sleepInterval`). -/
def mainBody (env : Env) (sleepInterval : Frac) (sr : Session) (clock nr : Frac) :
    Sum Session (Session × Frac × Frac) :=
  if sr.cached.state.isBuilding = true then
    match _append_to_gif env .main sr with
    | (sa, false) => Sum.inl sa
    | (sa, true) => Sum.inr ({ sa with k := sa.k + 1 }, Frac.add clock sleepInterval, nr)
  else Sum.inr ({ sr with k := sr.k + 1 }, Frac.add clock sleepInterval, nr)

/-- Embedding of the main capture loop, camera.py lines 80-96: while the
capture handle is open, no stop was requested, and the printer is busy and
building, refresh the job status when the refresh deadline passed
(camera.py lines 86-90), then run the body pass. -/
def mainLoop (env : Env) (sleepInterval refreshInterval : Frac) :
    Nat → Session → Frac → Frac → Session × MainExit
  | 0, s, _, _ => (s, .fuelOut)
  | fuel + 1, s, clock, nextRefresh =>
    if env.capOpen s.k = true ∧ env.stop s.k = false ∧
        s.cached.state.isBusy = true ∧ s.cached.state.isBuilding = true then
      match mainBody env sleepInterval
          (if Frac.le nextRefresh clock then set_job_status env s else s) clock
          (if Frac.le nextRefresh clock then Frac.add clock refreshInterval
           else nextRefresh) with
      | Sum.inl sa => (sa, .encodeError)
      | Sum.inr (s2, clock2, nr2) =>
        mainLoop env sleepInterval refreshInterval fuel s2 clock2 nr2
    else (s, .normal clock)

/-- How the post-completion grace loop ended. -/
inductive GraceExit
  | normal
  | encodeError
  | fpsZero
  | fuelOut
  deriving Repr

/-- One conditional append of the grace loop (camera.py lines 105-106):
append a frame while the cached state is completed, otherwise do nothing.
A `false` second component models the encode exception propagating. -/
def graceBody (env : Env) (s : Session) : Session × Bool :=
  if s.cached.state.isCompleted = true then _append_to_gif env .grace s else (s, true)

/-- Embedding of the grace loop, camera.py lines 99-107: until the grace
deadline, while the capture handle is open and no stop was requested,
append a frame while the cached state is completed, then sleep
`max(1 / gif_fps, 0.1)`.  `fpsZero` models the `ZeroDivisionError` Python
raises at that sleep when `gif_fps == 0`. -/
def graceLoop (env : Env) (gif_fps : Nat) (deadline : Frac) :
    Nat → Session → Frac → Session × GraceExit
  | 0, s, _ => (s, .fuelOut)
  | fuel + 1, s, clock =>
    if env.capOpen s.k = true ∧ env.stop s.k = false ∧ Frac.lt clock deadline then
      match graceBody env s with
      | (sa, false) => (sa, .encodeError)
      | (sa, true) =>
        if gif_fps = 0 then (sa, .fpsZero)
        else
          graceLoop env gif_fps deadline fuel { sa with k := sa.k + 1 }
            (Frac.add clock (Frac.fmax ⟨1, gif_fps⟩ ⟨1, 10⟩))
    else (s, .normal)

/-- How a whole `start_timelapse` invocation ended.  `notPrinting` is the
`RuntimeError` of line 47, `zeroDivFrames` and `fpsZero` are the possible
`ZeroDivisionError`s, `encodeError` an exception escaping
`_append_to_gif`, `finished` a normal return through lines 108-110. -/
inductive ExitKind
  | notPrinting
  | zeroDivFrames
  | fpsZero
  | encodeError
  | fuelOut
  | finished
  deriving DecidableEq, Repr

/-- The observable outcome of one `start_timelapse` invocation. -/
structure RunResult where
  exit : ExitKind
  s : Session
  deriving Repr

/-- Session state after line 45: one status poll done, nothing opened. -/
def initialSession (env : Env) : Session :=
  { pollCount := 1, readCount := 0, k := 0, cached := env.polls 0, log := [],
    streamOpened := false, outputRemoved := false, finalizeCount := 0 }

/-- Embedding of camera.py lines 97-110: final status refresh, the grace
loop, then `cap.release()` / `writer.close()` /
`cv2.destroyAllWindows()` (counted by `finalizeCount`).  When the grace
loop raises, the exception propagates and lines 108-110 never run. -/
def finishRun (env : Env) (gracePeriod : Frac) (gif_fps fuelG : Nat)
    (s4 : Session) (clock : Frac) : RunResult :=
  let s5 := set_job_status env s4
  match graceLoop env gif_fps (Frac.add clock gracePeriod) fuelG s5 clock with
  | (s6, .encodeError) => ⟨.encodeError, s6⟩
  | (s6, .fpsZero) => ⟨.fpsZero, s6⟩
  | (s6, .fuelOut) => ⟨.fuelOut, s6⟩
  | (s6, .normal) => ⟨.finished, { s6 with finalizeCount := s6.finalizeCount + 1 }⟩

/-- Embedding of camera.py lines 76-110: open the writer (clock zero, first
refresh due after one refresh interval), run the main loop, then finish. -/
def captureRun (env : Env) (gracePeriod refreshInterval : Frac)
    (gif_fps fuelM fuelG : Nat) (s3 : Session) (sleepInterval : Frac) : RunResult :=
  match mainLoop env sleepInterval refreshInterval fuelM s3 ⟨0, 1⟩ refreshInterval with
  | (s4, .encodeError) => ⟨.encodeError, s4⟩
  | (s4, .fuelOut) => ⟨.fuelOut, s4⟩
  | (s4, .normal clock) => finishRun env gracePeriod gif_fps fuelG s4 clock

/-- Embedding of camera.py lines 63-110: refresh, compute the pacing
interval, then capture. -/
def pacingRun (env : Env) (gracePeriod refreshInterval : Frac)
    (gif_fps gif_total_frames fuelM fuelG : Nat) (s2 : Session) : RunResult :=
  let s3 := set_job_status env s2
  match computeSleepInterval s3.cached.totalTime s3.cached.remainingTime
      gif_total_frames with
  | none => ⟨.zeroDivFrames, s3⟩
  | some (sleepInterval, _warned) =>
    captureRun env gracePeriod refreshInterval gif_fps fuelM fuelG s3 sleepInterval

/-- Embedding of `Dremel3D45Timelapse.start_timelapse` (camera.py lines
38-110).  The initial `asyncio.sleep(5)` precedes the reset of
`_should_stop` on line 50, so `env.stop` indexes awaits after that reset.
`gracePeriod` stands for `GIF_COMPLETED_GRACE_PERIOD` and
`refreshInterval` for `GIF_UPDATE_JOB_STATUS_INTERVAL`; both names are
imported by camera.py but defined nowhere under the sources, so their
values are left as parameters.  The three fuels bound the three source
loops, which have no intrinsic bound. -/
def start_timelapse (env : Env) (gracePeriod refreshInterval : Frac)
    (gif_fps gif_total_frames fuelW fuelM fuelG : Nat) : RunResult :=
  let s0 := initialSession env
  if s0.cached.state.isBusy = false then ⟨.notPrinting, s0⟩
  else
    match waitLoop env fuelW { s0 with streamOpened := true, outputRemoved := true } with
    | (s2, false) => ⟨.fuelOut, s2⟩
    | (s2, true) =>
      pacingRun env gracePeriod refreshInterval gif_fps gif_total_frames fuelM fuelG s2

/-- Total encoded size of the appended frames, in the same size units as
`Env.encode`.  The source keeps no such count; this observer makes the
absence of any size-cap bookkeeping in camera.py checkable. -/
def bytesWritten (log : List AppendEvent) : Nat := (log.map (fun e => e.size)).sum

/-- Whether a `cap.read()` result passes the guard of `_append_to_gif`
(`ret` true and a nonempty frame). -/
def isGoodRead : Option Nat → Bool
  | some (_ + 1) => true
  | _ => false

/-- How many of the first `n` reads pass the `_append_to_gif` guard. -/
def goodReads (env : Env) (n : Nat) : Nat :=
  (List.range n).countP (fun i => isGoodRead (env.reads i))

/-! ### Snapshot mode (main.py lines 266-270 and 312) -/

/-- The observable effects of one snapshot-mode invocation: frames
captured, files written, and whether an uncaught exception ended it. -/
structure SnapshotEffects where
  captures : Nat
  writes : Nat
  raised : Bool
  deriving DecidableEq, Repr

/-- The methods defined on `Dremel3D45Timelapse` (camera.py lines 24-113;
the class declares no base class, so these are all its attributes). -/
def timelapse_class_methods : List String :=
  ["__init__", "_append_to_gif", "start_timelapse", "stop_timelapse"]

/-- The positional parameters `Dremel3D45Timelapse.__init__` accepts
besides `self` (camera.py line 25). -/
def timelapse_init_params : List String := ["printer"]

/-- Number of required parameters of `__init__` besides `self`. -/
def timelapse_init_required : Nat := 1

/-- The positional arguments main.py passes when constructing the camera
for the media modes, snapshot included (main.py line 312:
`Dremel3D45Timelapse(dremel, loop)`). -/
def timelapse_ctor_args : List String := ["dremel", "loop"]

/-- Embedding of `make_snapshot` (main.py lines 266-270) run against a
camera class described by its method table: Python first resolves the
attribute `camera.get_snapshot_img`; when the class defines no such
method the lookup raises `AttributeError` before any frame is captured
or file written.  What a resolved method would go on to do is abstracted
by `run`, so this definition commits only to the resolution step. -/
def make_snapshot (methods : List String) (run : Unit → SnapshotEffects) :
    SnapshotEffects :=
  if methods.contains "get_snapshot_img" then run ()
  else { captures := 0, writes := 0, raised := true }

/-! ### Call-shape and import facts (main.py lines 212-234 and the imports) -/

/-- The positional parameters `start_timelapse` accepts besides `self`
(camera.py lines 38-43); only `gif_path` has no default. -/
def start_timelapse_params : List String := ["gif_path", "gif_fps", "gif_total_frames"]

/-- Number of required parameters of `start_timelapse` besides `self`. -/
def start_timelapse_required : Nat := 1

/-- The positional arguments `make_gif` passes to `camera.start_timelapse`
(main.py lines 224-234). -/
def make_gif_args : List String :=
  ["output", "fps", "max_output_size", "duration", "length", "idle", "original",
   "scale", "silent or idle"]

/-- A Python positional call binds when the argument count is between the
required and the accepted parameter count. -/
def callBinds (required accepted passed : Nat) : Bool :=
  decide (required ≤ passed) && decide (passed ≤ accepted)

/-- Every module-level name defined by `dremel3dpy/helpers/constants.py`
(the whole file, lines 1-117). -/
def constants_defined_names : List String :=
  ["MAJOR_VERSION", "MINOR_VERSION", "PATCH_VERSION", "__version__",
   "PROJECT_NAME", "PROJECT_PACKAGE_NAME", "PROJECT_AUTHOR", "PROJECT_EMAIL",
   "PROJECT_COPYRIGHT", "PROJECT_LICENSE", "PROJECT_URL", "PROJECT_DESCRIPTION",
   "PROJECT_LONG_DESCRIPTION", "PROJECT_CLASSIFIERS", "PROJECT_GITHUB_USERNAME",
   "PROJECT_GITHUB_REPOSITORY", "PROJECT_KEYWORDS", "PYPI_URL",
   "SERVICE_PRINT_JOB", "SERVICE_PAUSE_JOB", "SERVICE_RESUME_JOB",
   "SERVICE_STOP_JOB", "ATTR_FILEPATH", "ATTR_URL", "ATTR_DEVICE_ID",
   "COMMAND_PORT", "CAMERA_PORT", "EXTRA_STATUS_PORT", "COMMAND_PATH",
   "HOME_MESSAGE_PATH", "PRINT_FILE_UPLOADS", "PRINTER_STATUS_COMMAND",
   "PRINTER_INFO_COMMAND", "PRINT_COMMAND", "RESUME_COMMAND", "PAUSE_COMMAND",
   "CANCEL_COMMAND", "STATS_FILE_NAME", "STATS_FILAMENT_USED",
   "STATS_LAYER_HEIGHT", "STATS_SOFTWARE", "STATS_INFILL_SPARSE_DENSITY",
   "EVENT_DATA_NEW_PRINT_STATS", "REQUEST_TIMEOUT", "DREMEL_MANUFACTURER",
   "MESSAGE", "ERROR_CODE", "CONF_HOST", "CONF_TITLE", "CONF_MODEL",
   "CONF_SERIAL_NUMBER", "CONF_API_VERSION", "CONF_FIRMWARE_VERSION",
   "CONF_MACHINE_TYPE", "CONF_WIFI_IP", "CONF_WIFI_CONNECTED",
   "CONF_ETHERNET_IP", "CONF_ETHERNET_CONNECTED", "CONF_CONNECTION_TYPE",
   "ELAPSED_TIME", "ESTIMATED_TOTAL_TIME", "REMAINING_TIME", "PROGRESS",
   "STATUS", "DOOR_OPEN", "FILAMENT", "FAN_SPEED", "CHAMBER_TEMPERATURE",
   "PLATFORM_TEMPERATURE", "PLATFORM_TARGET_TEMPERATURE",
   "EXTRUDER_TEMPERATURE", "EXTRUDER_TARGET_TEMPERATURE", "JOB_STATUS",
   "JOB_NAME", "NETWORK_BUILD", "USAGE_COUNTER", "AVAILABLE_STORAGE",
   "PLATFORM_TEMPERATURE_RANGE", "EXTRUDER_TEMPERATURE_RANGE"]

/-- The names camera.py imports from `dremel3dpy.helpers.constants`
(camera.py lines 14-21). -/
def camera_imported_names : List String :=
  ["GIF_COMPLETED_GRACE_PERIOD", "GIF_DEFAULT_FPS", "GIF_DEFAULT_FRAMES",
   "GIF_ENCODE_PARAM", "GIF_POLLING_INTERVAL_UNTIL_START",
   "GIF_UPDATE_JOB_STATUS_INTERVAL"]

/-- The names main.py imports from `dremel3dpy.helpers.constants`
(main.py lines 16-23). -/
def main_imported_names : List String :=
  ["DEFAULT_FINAL_GRACE_PERIOD", "DEFAULT_FPS", "DEFAULT_MAX_SIZE_MB",
   "DEFAULT_SCALE_PERCENT", "DEFAULT_TOTAL_DURATION", "EXIT_SIGNALS"]

/-! ### Concrete environments used by closed runs and witnesses -/

/-- A printer that is never busy. -/
def envIdle : Env :=
  { polls := fun _ => ⟨.idle, 0, 0⟩, reads := fun _ => some 1,
    encode := fun _ => some 1, capOpen := fun _ => true, stop := fun _ => false }

/-- A job that builds for a while and then goes idle; every read yields a
1-unit frame and every encode succeeds at 1 size unit.  Used with
`gif_total_frames = 3` and total time 3 seconds: three frames of one size
unit each get appended. -/
def envSteady : Env :=
  { polls := fun n => if n ≤ 3 then ⟨.building, 3, 0⟩ else ⟨.idle, 3, 0⟩,
    reads := fun _ => some 1, encode := fun _ => some 1,
    capOpen := fun _ => true, stop := fun _ => false }

/-- A job that reports building long enough for 100 paced ticks of 36
seconds at `total_time = 3600`, then goes idle. -/
def envBuilding100 : Env :=
  { polls := fun n => if n ≤ 100 then ⟨.building, 3600, 0⟩ else ⟨.idle, 3600, 0⟩,
    reads := fun _ => some 1, encode := fun _ => some 1,
    capOpen := fun _ => true, stop := fun _ => false }

/-- A building job whose very first frame reads fine but fails to encode. -/
def envEncodeFail : Env :=
  { polls := fun n => if n ≤ 1 then ⟨.building, 10, 0⟩ else ⟨.idle, 10, 0⟩,
    reads := fun _ => some 1, encode := fun _ => none,
    capOpen := fun _ => true, stop := fun _ => false }

/-- A building job with a mix of good, missing and empty frames: read 1
returns no data, read 2 an empty frame, the others 1-unit frames. -/
def envMixedReads : Env :=
  { polls := fun n => if n ≤ 4 then ⟨.building, 4, 0⟩ else ⟨.idle, 4, 0⟩,
    reads := fun i => if i = 1 then none else if i = 2 then some 0 else some 1,
    encode := fun _ => some 1, capOpen := fun _ => true, stop := fun _ => false }

/-- A permanently building job whose stop flag is raised after the first
completed sleep (`stop_timelapse` called during the first pacing sleep). -/
def envStopAfter1 : Env :=
  { polls := fun _ => ⟨.building, 10, 0⟩, reads := fun _ => some 1,
    encode := fun _ => some 1, capOpen := fun _ => true,
    stop := fun k => decide (1 ≤ k) }

/-! ### Basic lemmas about the embedded operations -/

theorem isBuilding_iff {st : JobState} : st.isBuilding = true ↔ st = .building := by
  cases st <;> simp [JobState.isBuilding]

theorem isCompleted_iff {st : JobState} : st.isCompleted = true ↔ st = .completed := by
  cases st <;> simp [JobState.isCompleted]

theorem set_job_status_log (env : Env) (s : Session) :
    (set_job_status env s).log = s.log := rfl

theorem set_job_status_k (env : Env) (s : Session) :
    (set_job_status env s).k = s.k := rfl

theorem set_job_status_readCount (env : Env) (s : Session) :
    (set_job_status env s).readCount = s.readCount := rfl

theorem set_job_status_finalizeCount (env : Env) (s : Session) :
    (set_job_status env s).finalizeCount = s.finalizeCount := rfl

theorem set_job_status_streamOpened (env : Env) (s : Session) :
    (set_job_status env s).streamOpened = s.streamOpened := rfl

theorem set_job_status_outputRemoved (env : Env) (s : Session) :
    (set_job_status env s).outputRemoved = s.outputRemoved := rfl

theorem goodReads_succ (env : Env) (n : Nat) :
    goodReads env (n + 1)
      = goodReads env n + (if isGoodRead (env.reads n) = true then 1 else 0) := by
  unfold goodReads
  rw [List.range_succ, List.countP_append]
  simp [List.countP_cons]

/-! ### Exhaustive case analyses of the loop bodies -/

theorem mainBody_cases (env : Env) (si : Frac) (sr : Session) (clock nr : Frac) :
    (sr.cached.state.isBuilding = false ∧
      mainBody env si sr clock nr
        = Sum.inr ({ sr with k := sr.k + 1 }, Frac.add clock si, nr)) ∨
    (sr.cached.state.isBuilding = true ∧ isGoodRead (env.reads sr.readCount) = false ∧
      mainBody env si sr clock nr
        = Sum.inr ({ sr with readCount := sr.readCount + 1, k := sr.k + 1 },
            Frac.add clock si, nr)) ∨
    (sr.cached.state.isBuilding = true ∧ isGoodRead (env.reads sr.readCount) = true ∧
      env.encode sr.readCount = none ∧
      mainBody env si sr clock nr = Sum.inl { sr with readCount := sr.readCount + 1 }) ∨
    (∃ b, sr.cached.state.isBuilding = true ∧
      isGoodRead (env.reads sr.readCount) = true ∧ env.encode sr.readCount = some b ∧
      mainBody env si sr clock nr
        = Sum.inr ({ sr with
              readCount := sr.readCount + 1,
              log := sr.log ++ [⟨.main, sr.cached.state, sr.k, sr.readCount, b⟩],
              k := sr.k + 1 }, Frac.add clock si, nr)) := by
  unfold mainBody _append_to_gif
  by_cases hb : sr.cached.state.isBuilding = true
  · rw [if_pos hb]
    cases h1 : env.reads sr.readCount with
    | none => exact Or.inr (Or.inl ⟨hb, rfl, rfl⟩)
    | some n =>
      cases n with
      | zero => exact Or.inr (Or.inl ⟨hb, rfl, rfl⟩)
      | succ m =>
        cases h2 : env.encode sr.readCount with
        | none => exact Or.inr (Or.inr (Or.inl ⟨hb, rfl, rfl, rfl⟩))
        | some b => exact Or.inr (Or.inr (Or.inr ⟨b, hb, rfl, rfl, rfl⟩))
  · rw [if_neg hb]
    exact Or.inl ⟨by simpa using hb, rfl⟩

theorem graceBody_cases (env : Env) (s : Session) :
    (s.cached.state.isCompleted = false ∧ graceBody env s = (s, true)) ∨
    (s.cached.state.isCompleted = true ∧ isGoodRead (env.reads s.readCount) = false ∧
      graceBody env s = ({ s with readCount := s.readCount + 1 }, true)) ∨
    (s.cached.state.isCompleted = true ∧ isGoodRead (env.reads s.readCount) = true ∧
      env.encode s.readCount = none ∧
      graceBody env s = ({ s with readCount := s.readCount + 1 }, false)) ∨
    (∃ b, s.cached.state.isCompleted = true ∧
      isGoodRead (env.reads s.readCount) = true ∧ env.encode s.readCount = some b ∧
      graceBody env s = ({ s with
          readCount := s.readCount + 1,
          log := s.log ++ [⟨.grace, s.cached.state, s.k, s.readCount, b⟩] }, true)) := by
  unfold graceBody _append_to_gif
  by_cases hc : s.cached.state.isCompleted = true
  · rw [if_pos hc]
    cases h1 : env.reads s.readCount with
    | none => exact Or.inr (Or.inl ⟨hc, rfl, rfl⟩)
    | some n =>
      cases n with
      | zero => exact Or.inr (Or.inl ⟨hc, rfl, rfl⟩)
      | succ m =>
        cases h2 : env.encode s.readCount with
        | none => exact Or.inr (Or.inr (Or.inl ⟨hc, rfl, rfl, rfl⟩))
        | some b => exact Or.inr (Or.inr (Or.inr ⟨b, hc, rfl, rfl, rfl⟩))
  · rw [if_neg hc]
    exact Or.inl ⟨by simpa using hc, rfl⟩

/-! ### Lemmas about the waiting loop -/

theorem waitLoop_pres (env : Env) (fuel : Nat) : ∀ s : Session,
    (waitLoop env fuel s).1.log = s.log ∧
    (waitLoop env fuel s).1.readCount = s.readCount ∧
    (waitLoop env fuel s).1.finalizeCount = s.finalizeCount ∧
    (waitLoop env fuel s).1.streamOpened = s.streamOpened ∧
    (waitLoop env fuel s).1.outputRemoved = s.outputRemoved := by
  induction fuel with
  | zero => intro s; exact ⟨rfl, rfl, rfl, rfl, rfl⟩
  | succ n ih =>
    intro s
    simp only [waitLoop]
    split
    · exact ih _
    · exact ⟨rfl, rfl, rfl, rfl, rfl⟩

theorem waitLoop_term (env : Env) (sb : Nat)
    (hstop : ∀ k, sb ≤ k → env.stop k = true) (fuel : Nat) :
    ∀ s : Session, sb < s.k + fuel → 0 < fuel → (waitLoop env fuel s).2 = true := by
  induction fuel with
  | zero => intro s _ h0; exact absurd h0 (by omega)
  | succ n ih =>
    intro s hk _
    simp only [waitLoop]
    split
    case isTrue hc =>
      have hklt : s.k < sb := by
        by_contra hge
        have h1 := hstop s.k (by omega)
        rw [hc.1] at h1
        cases h1
      apply ih
      · show sb < (s.k + 1) + n
        omega
      · omega
    case isFalse => rfl

/-! ### Lemmas about the main capture loop -/

theorem mainLoop_log (env : Env) (si ri : Frac) (fuel : Nat) :
    ∀ (s : Session) (clock nr : Frac),
      ∃ t, (mainLoop env si ri fuel s clock nr).1.log = s.log ++ t ∧
        ∀ e ∈ t, e.phase = .main ∧ e.state = .building ∧ env.stop e.k = false := by
  induction fuel with
  | zero =>
    intro s clock nr
    exact ⟨[], by simp [mainLoop], by intro e he; cases he⟩
  | succ n ih =>
    intro s clock nr
    simp only [mainLoop]
    split
    case isTrue hc =>
      have key : ∀ (sr : Session) (nr0 : Frac), sr.log = s.log → sr.k = s.k →
          ∃ t, (match mainBody env si sr clock nr0 with
                | Sum.inl sa => (sa, MainExit.encodeError)
                | Sum.inr (s2, c2, n2) => mainLoop env si ri n s2 c2 n2).1.log
              = s.log ++ t ∧
            ∀ e ∈ t, e.phase = .main ∧ e.state = .building ∧ env.stop e.k = false := by
        intro sr nr0 hlog hk
        rcases mainBody_cases env si sr clock nr0 with
          ⟨hb, hEq⟩ | ⟨hb, hg, hEq⟩ | ⟨hb, hg, he, hEq⟩ | ⟨b, hb, hg, he, hEq⟩
        · obtain ⟨t, ht, hgood⟩ := ih { sr with k := sr.k + 1 } (Frac.add clock si) nr0
          rw [hEq]
          refine ⟨t, ?_, hgood⟩
          rw [ht]
          show sr.log ++ t = s.log ++ t
          rw [hlog]
        · obtain ⟨t, ht, hgood⟩ :=
            ih { sr with readCount := sr.readCount + 1, k := sr.k + 1 }
              (Frac.add clock si) nr0
          rw [hEq]
          refine ⟨t, ?_, hgood⟩
          rw [ht]
          show sr.log ++ t = s.log ++ t
          rw [hlog]
        · rw [hEq]
          refine ⟨[], ?_, by intro e he0; cases he0⟩
          show sr.log = s.log ++ []
          rw [hlog, List.append_nil]
        · obtain ⟨t, ht, hgood⟩ :=
            ih { sr with
                  readCount := sr.readCount + 1,
                  log := sr.log ++ [⟨.main, sr.cached.state, sr.k, sr.readCount, b⟩],
                  k := sr.k + 1 }
              (Frac.add clock si) nr0
          rw [hEq]
          refine ⟨⟨.main, sr.cached.state, sr.k, sr.readCount, b⟩ :: t, ?_, ?_⟩
          · rw [ht]
            show (sr.log ++ [⟨.main, sr.cached.state, sr.k, sr.readCount, b⟩]) ++ t
                = s.log ++ ⟨.main, sr.cached.state, sr.k, sr.readCount, b⟩ :: t
            rw [hlog, List.append_assoc]
            rfl
          · intro e he0
            rcases List.mem_cons.mp he0 with he0 | he0
            · subst he0
              refine ⟨rfl, isBuilding_iff.mp hb, ?_⟩
              show env.stop sr.k = false
              rw [hk]
              exact hc.2.1
            · exact hgood e he0
      by_cases hR : Frac.le nr clock
      · rw [if_pos hR]
        exact key _ _ rfl rfl
      · rw [if_neg hR]
        exact key _ _ rfl rfl
    case isFalse =>
      exact ⟨[], by simp, by intro e he; cases he⟩

theorem mainLoop_pres (env : Env) (si ri : Frac) (fuel : Nat) :
    ∀ (s : Session) (clock nr : Frac),
      (mainLoop env si ri fuel s clock nr).1.finalizeCount = s.finalizeCount ∧
      (mainLoop env si ri fuel s clock nr).1.streamOpened = s.streamOpened ∧
      (mainLoop env si ri fuel s clock nr).1.outputRemoved = s.outputRemoved := by
  induction fuel with
  | zero => intro s clock nr; exact ⟨rfl, rfl, rfl⟩
  | succ n ih =>
    intro s clock nr
    simp only [mainLoop]
    split
    case isTrue hc =>
      have key : ∀ (sr : Session) (nr0 : Frac),
          sr.finalizeCount = s.finalizeCount → sr.streamOpened = s.streamOpened →
          sr.outputRemoved = s.outputRemoved →
          (match mainBody env si sr clock nr0 with
            | Sum.inl sa => (sa, MainExit.encodeError)
            | Sum.inr (s2, c2, n2) => mainLoop env si ri n s2 c2 n2).1.finalizeCount
              = s.finalizeCount ∧
          (match mainBody env si sr clock nr0 with
            | Sum.inl sa => (sa, MainExit.encodeError)
            | Sum.inr (s2, c2, n2) => mainLoop env si ri n s2 c2 n2).1.streamOpened
              = s.streamOpened ∧
          (match mainBody env si sr clock nr0 with
            | Sum.inl sa => (sa, MainExit.encodeError)
            | Sum.inr (s2, c2, n2) => mainLoop env si ri n s2 c2 n2).1.outputRemoved
              = s.outputRemoved := by
        intro sr nr0 h1 h2 h3
        rcases mainBody_cases env si sr clock nr0 with
          ⟨hb, hEq⟩ | ⟨hb, hg, hEq⟩ | ⟨hb, hg, he, hEq⟩ | ⟨b, hb, hg, he, hEq⟩ <;>
          rw [hEq]
        · obtain ⟨p1, p2, p3⟩ := ih { sr with k := sr.k + 1 } (Frac.add clock si) nr0
          exact ⟨by rw [p1]; exact h1, by rw [p2]; exact h2, by rw [p3]; exact h3⟩
        · obtain ⟨p1, p2, p3⟩ :=
            ih { sr with readCount := sr.readCount + 1, k := sr.k + 1 }
              (Frac.add clock si) nr0
          exact ⟨by rw [p1]; exact h1, by rw [p2]; exact h2, by rw [p3]; exact h3⟩
        · exact ⟨h1, h2, h3⟩
        · obtain ⟨p1, p2, p3⟩ :=
            ih { sr with
                  readCount := sr.readCount + 1,
                  log := sr.log ++ [⟨.main, sr.cached.state, sr.k, sr.readCount, b⟩],
                  k := sr.k + 1 }
              (Frac.add clock si) nr0
          exact ⟨by rw [p1]; exact h1, by rw [p2]; exact h2, by rw [p3]; exact h3⟩
      by_cases hR : Frac.le nr clock
      · rw [if_pos hR]
        exact key _ _ rfl rfl rfl
      · rw [if_neg hR]
        exact key _ _ rfl rfl rfl
    case isFalse => exact ⟨rfl, rfl, rfl⟩

theorem mainLoop_term (env : Env) (si ri : Frac) (sb : Nat)
    (hstop : ∀ k, sb ≤ k → env.stop k = true)
    (henc : ∀ n, (env.encode n).isSome = true) (fuel : Nat) :
    ∀ (s : Session) (clock nr : Frac), sb < s.k + fuel → 0 < fuel →
      ∃ c, (mainLoop env si ri fuel s clock nr).2 = MainExit.normal c := by
  induction fuel with
  | zero => intro s clock nr _ h0; exact absurd h0 (by omega)
  | succ n ih =>
    intro s clock nr hk _
    simp only [mainLoop]
    split
    case isTrue hc =>
      have hklt : s.k < sb := by
        by_contra hge
        have h1 := hstop s.k (by omega)
        rw [hc.2.1] at h1
        cases h1
      have key : ∀ (sr : Session) (nr0 : Frac), sr.k = s.k →
          ∃ c, (match mainBody env si sr clock nr0 with
                | Sum.inl sa => (sa, MainExit.encodeError)
                | Sum.inr (s2, c2, n2) => mainLoop env si ri n s2 c2 n2).2
              = MainExit.normal c := by
        intro sr nr0 hkk
        rcases mainBody_cases env si sr clock nr0 with
          ⟨hb, hEq⟩ | ⟨hb, hg, hEq⟩ | ⟨hb, hg, he, hEq⟩ | ⟨b, hb, hg, he, hEq⟩ <;>
          rw [hEq]
        · refine ih _ _ _ ?_ (by omega)
          show sb < (sr.k + 1) + n
          omega
        · refine ih _ _ _ ?_ (by omega)
          show sb < (sr.k + 1) + n
          omega
        · have h1 := henc sr.readCount
          rw [he] at h1
          cases h1
        · refine ih _ _ _ ?_ (by omega)
          show sb < (sr.k + 1) + n
          omega
      by_cases hR : Frac.le nr clock
      · rw [if_pos hR]
        exact key _ _ rfl
      · rw [if_neg hR]
        exact key _ _ rfl
    case isFalse => exact ⟨clock, rfl⟩

theorem mainLoop_count (env : Env) (si ri : Frac)
    (henc : ∀ n, (env.encode n).isSome = true) (fuel : Nat) :
    ∀ (s : Session) (clock nr : Frac),
      s.log.length = goodReads env s.readCount →
      (mainLoop env si ri fuel s clock nr).1.log.length
          = goodReads env (mainLoop env si ri fuel s clock nr).1.readCount ∧
        (mainLoop env si ri fuel s clock nr).2 ≠ MainExit.encodeError := by
  induction fuel with
  | zero =>
    intro s clock nr hinv
    exact ⟨hinv, by intro h; cases h⟩
  | succ n ih =>
    intro s clock nr hinv
    simp only [mainLoop]
    split
    case isTrue hc =>
      have key : ∀ (sr : Session) (nr0 : Frac),
          sr.log.length = goodReads env sr.readCount →
          (match mainBody env si sr clock nr0 with
            | Sum.inl sa => (sa, MainExit.encodeError)
            | Sum.inr (s2, c2, n2) => mainLoop env si ri n s2 c2 n2).1.log.length
              = goodReads env
                (match mainBody env si sr clock nr0 with
                  | Sum.inl sa => (sa, MainExit.encodeError)
                  | Sum.inr (s2, c2, n2) => mainLoop env si ri n s2 c2 n2).1.readCount ∧
          (match mainBody env si sr clock nr0 with
            | Sum.inl sa => (sa, MainExit.encodeError)
            | Sum.inr (s2, c2, n2) => mainLoop env si ri n s2 c2 n2).2
              ≠ MainExit.encodeError := by
        intro sr nr0 hinv0
        rcases mainBody_cases env si sr clock nr0 with
          ⟨hb, hEq⟩ | ⟨hb, hg, hEq⟩ | ⟨hb, hg, he, hEq⟩ | ⟨b, hb, hg, he, hEq⟩ <;>
          rw [hEq]
        · exact ih _ _ _ hinv0
        · refine ih _ _ _ ?_
          show sr.log.length = goodReads env (sr.readCount + 1)
          rw [goodReads_succ, hg]
          simpa using hinv0
        · have h1 := henc sr.readCount
          rw [he] at h1
          cases h1
        · refine ih _ _ _ ?_
          show (sr.log
                ++ [(⟨.main, sr.cached.state, sr.k, sr.readCount, b⟩ : AppendEvent)]).length
              = goodReads env (sr.readCount + 1)
          rw [goodReads_succ, hg, List.length_append, hinv0]
          rfl
      by_cases hR : Frac.le nr clock
      · rw [if_pos hR]
        refine key _ _ ?_
        show s.log.length = goodReads env s.readCount
        exact hinv
      · rw [if_neg hR]
        exact key _ _ hinv
    case isFalse => exact ⟨hinv, by intro h; cases h⟩

/-! ### Lemmas about the grace loop -/

theorem graceLoop_log (env : Env) (fps : Nat) (deadline : Frac) (fuel : Nat) :
    ∀ (s : Session) (clock : Frac),
      ∃ t, (graceLoop env fps deadline fuel s clock).1.log = s.log ++ t ∧
        ∀ e ∈ t, e.phase = .grace ∧ e.state = .completed ∧ env.stop e.k = false := by
  induction fuel with
  | zero =>
    intro s clock
    exact ⟨[], by simp [graceLoop], by intro e he; cases he⟩
  | succ n ih =>
    intro s clock
    simp only [graceLoop]
    split
    case isTrue hc =>
      rcases graceBody_cases env s with
        ⟨hcp, hEq⟩ | ⟨hcp, hg, hEq⟩ | ⟨hcp, hg, he, hEq⟩ | ⟨b, hcp, hg, he, hEq⟩ <;>
        rw [hEq] <;> dsimp only
      · by_cases hf : fps = 0
        · rw [if_pos hf]
          exact ⟨[], by simp, by intro e he0; cases he0⟩
        · rw [if_neg hf]
          obtain ⟨t, ht, hgood⟩ := ih { s with k := s.k + 1 } _
          exact ⟨t, ht, hgood⟩
      · by_cases hf : fps = 0
        · rw [if_pos hf]
          exact ⟨[], by simp, by intro e he0; cases he0⟩
        · rw [if_neg hf]
          obtain ⟨t, ht, hgood⟩ :=
            ih { s with readCount := s.readCount + 1, k := s.k + 1 } _
          exact ⟨t, ht, hgood⟩
      · refine ⟨[], ?_, by intro e he0; cases he0⟩
        show s.log = s.log ++ []
        rw [List.append_nil]
      · have hek : env.stop s.k = false := hc.2.1
        by_cases hf : fps = 0
        · rw [if_pos hf]
          refine ⟨[⟨.grace, s.cached.state, s.k, s.readCount, b⟩], rfl, ?_⟩
          intro e he0
          rcases List.mem_cons.mp he0 with he0 | he0
          · subst he0
            exact ⟨rfl, isCompleted_iff.mp hcp, hek⟩
          · cases he0
        · rw [if_neg hf]
          obtain ⟨t, ht, hgood⟩ :=
            ih { s with
                  readCount := s.readCount + 1,
                  log := s.log ++ [⟨.grace, s.cached.state, s.k, s.readCount, b⟩],
                  k := s.k + 1 } _
          refine ⟨⟨.grace, s.cached.state, s.k, s.readCount, b⟩ :: t, ?_, ?_⟩
          · rw [ht]
            show (s.log ++ [⟨.grace, s.cached.state, s.k, s.readCount, b⟩]) ++ t
                = s.log ++ ⟨.grace, s.cached.state, s.k, s.readCount, b⟩ :: t
            rw [List.append_assoc]
            rfl
          · intro e he0
            rcases List.mem_cons.mp he0 with he0 | he0
            · subst he0
              exact ⟨rfl, isCompleted_iff.mp hcp, hek⟩
            · exact hgood e he0
    case isFalse =>
      exact ⟨[], by simp, by intro e he; cases he⟩

theorem graceLoop_pres (env : Env) (fps : Nat) (deadline : Frac) (fuel : Nat) :
    ∀ (s : Session) (clock : Frac),
      (graceLoop env fps deadline fuel s clock).1.finalizeCount = s.finalizeCount ∧
      (graceLoop env fps deadline fuel s clock).1.streamOpened = s.streamOpened ∧
      (graceLoop env fps deadline fuel s clock).1.outputRemoved = s.outputRemoved := by
  induction fuel with
  | zero => intro s clock; exact ⟨rfl, rfl, rfl⟩
  | succ n ih =>
    intro s clock
    simp only [graceLoop]
    split
    case isTrue hc =>
      rcases graceBody_cases env s with
        ⟨hcp, hEq⟩ | ⟨hcp, hg, hEq⟩ | ⟨hcp, hg, he, hEq⟩ | ⟨b, hcp, hg, he, hEq⟩ <;>
        rw [hEq] <;> dsimp only
      · by_cases hf : fps = 0
        · rw [if_pos hf]; exact ⟨rfl, rfl, rfl⟩
        · rw [if_neg hf]; exact ih _ _
      · by_cases hf : fps = 0
        · rw [if_pos hf]; exact ⟨rfl, rfl, rfl⟩
        · rw [if_neg hf]; exact ih _ _
      · exact ⟨rfl, rfl, rfl⟩
      · by_cases hf : fps = 0
        · rw [if_pos hf]; exact ⟨rfl, rfl, rfl⟩
        · rw [if_neg hf]; exact ih _ _
    case isFalse => exact ⟨rfl, rfl, rfl⟩

theorem graceLoop_term (env : Env) (fps : Nat) (deadline : Frac) (sb : Nat)
    (hstop : ∀ k, sb ≤ k → env.stop k = true)
    (henc : ∀ n, (env.encode n).isSome = true)
    (hf : fps ≠ 0) (fuel : Nat) :
    ∀ (s : Session) (clock : Frac), sb < s.k + fuel → 0 < fuel →
      (graceLoop env fps deadline fuel s clock).2 = GraceExit.normal := by
  induction fuel with
  | zero => intro s clock _ h0; exact absurd h0 (by omega)
  | succ n ih =>
    intro s clock hk _
    simp only [graceLoop]
    split
    case isTrue hc =>
      have hklt : s.k < sb := by
        by_contra hge
        have h1 := hstop s.k (by omega)
        rw [hc.2.1] at h1
        cases h1
      rcases graceBody_cases env s with
        ⟨hcp, hEq⟩ | ⟨hcp, hg, hEq⟩ | ⟨hcp, hg, he, hEq⟩ | ⟨b, hcp, hg, he, hEq⟩ <;>
        rw [hEq] <;> dsimp only
      · refine ih _ _ ?_ (by omega)
        show sb < (s.k + 1) + n
        omega
      · refine ih _ _ ?_ (by omega)
        show sb < (s.k + 1) + n
        omega
      · have h1 := henc s.readCount
        rw [he] at h1
        cases h1
      · refine ih _ _ ?_ (by omega)
        show sb < (s.k + 1) + n
        omega
    case isFalse => rfl

theorem graceLoop_count (env : Env) (fps : Nat) (deadline : Frac)
    (henc : ∀ n, (env.encode n).isSome = true) (fuel : Nat) :
    ∀ (s : Session) (clock : Frac),
      s.log.length = goodReads env s.readCount →
      (graceLoop env fps deadline fuel s clock).1.log.length
          = goodReads env (graceLoop env fps deadline fuel s clock).1.readCount ∧
        (graceLoop env fps deadline fuel s clock).2 ≠ GraceExit.encodeError := by
  induction fuel with
  | zero =>
    intro s clock hinv
    exact ⟨hinv, by intro h; cases h⟩
  | succ n ih =>
    intro s clock hinv
    simp only [graceLoop]
    split
    case isTrue hc =>
      rcases graceBody_cases env s with
        ⟨hcp, hEq⟩ | ⟨hcp, hg, hEq⟩ | ⟨hcp, hg, he, hEq⟩ | ⟨b, hcp, hg, he, hEq⟩ <;>
        rw [hEq] <;> dsimp only
      · by_cases hf : fps = 0
        · rw [if_pos hf]
          exact ⟨hinv, by intro h; cases h⟩
        · rw [if_neg hf]
          exact ih _ _ hinv
      · by_cases hf : fps = 0
        · rw [if_pos hf]
          refine ⟨?_, by intro h; cases h⟩
          show s.log.length = goodReads env (s.readCount + 1)
          rw [goodReads_succ, hg]
          simpa using hinv
        · rw [if_neg hf]
          refine ih _ _ ?_
          show s.log.length = goodReads env (s.readCount + 1)
          rw [goodReads_succ, hg]
          simpa using hinv
      · have h1 := henc s.readCount
        rw [he] at h1
        cases h1
      · have hstep : (s.log
            ++ [(⟨.grace, s.cached.state, s.k, s.readCount, b⟩ : AppendEvent)]).length
              = goodReads env (s.readCount + 1) := by
          rw [goodReads_succ, hg, List.length_append, hinv]
          rfl
        by_cases hf : fps = 0
        · rw [if_pos hf]
          exact ⟨hstep, by intro h; cases h⟩
        · rw [if_neg hf]
          exact ih _ _ hstep
    case isFalse => exact ⟨hinv, by intro h; cases h⟩

/-! ### Composition lemmas for the phases of `start_timelapse` -/

theorem computeSleepInterval_some (t r frames : Nat) (hframes : frames ≠ 0) :
    computeSleepInterval t r frames
      = some (⟨(if max t r = 0 then 60 * 60 else max t r), frames⟩,
          if max t r = 0 then true else false) := by
  unfold computeSleepInterval
  rw [if_neg hframes]
  by_cases h : max t r = 0
  · rw [if_pos h, if_pos h, if_pos h]
  · rw [if_neg h, if_neg h, if_neg h]

theorem finishRun_log (env : Env) (g : Frac) (fps fg : Nat) (s4 : Session)
    (clock : Frac) :
    ∃ t, (finishRun env g fps fg s4 clock).s.log = s4.log ++ t ∧
      ∀ e ∈ t, e.phase = .grace ∧ e.state = .completed ∧ env.stop e.k = false := by
  unfold finishRun
  dsimp only
  obtain ⟨t, ht, hgood⟩ :=
    graceLoop_log env fps (Frac.add clock g) fg (set_job_status env s4) clock
  rcases hG : graceLoop env fps (Frac.add clock g) fg (set_job_status env s4) clock
    with ⟨s6, ge⟩
  rw [hG] at ht
  cases ge <;> exact ⟨t, ht, hgood⟩

theorem finishRun_pres (env : Env) (g : Frac) (fps fg : Nat) (s4 : Session)
    (clock : Frac) :
    (finishRun env g fps fg s4 clock).s.streamOpened = s4.streamOpened ∧
    (finishRun env g fps fg s4 clock).s.outputRemoved = s4.outputRemoved := by
  unfold finishRun
  dsimp only
  obtain ⟨-, h2, h3⟩ :=
    graceLoop_pres env fps (Frac.add clock g) fg (set_job_status env s4) clock
  rcases hG : graceLoop env fps (Frac.add clock g) fg (set_job_status env s4) clock
    with ⟨s6, ge⟩
  rw [hG] at h2 h3
  cases ge <;> exact ⟨h2, h3⟩

theorem finishRun_finished (env : Env) (g : Frac) (fps fg : Nat) (s4 : Session)
    (clock : Frac) (sb : Nat)
    (hstop : ∀ k, sb ≤ k → env.stop k = true)
    (henc : ∀ n, (env.encode n).isSome = true)
    (hfps : fps ≠ 0) (hfg : sb < fg) :
    (finishRun env g fps fg s4 clock).exit = .finished ∧
    (finishRun env g fps fg s4 clock).s.finalizeCount = s4.finalizeCount + 1 := by
  unfold finishRun
  dsimp only
  have hterm := graceLoop_term env fps (Frac.add clock g) sb hstop henc hfps fg
    (set_job_status env s4) clock
    (by show sb < s4.k + fg; omega) (by omega)
  have hpres :=
    (graceLoop_pres env fps (Frac.add clock g) fg (set_job_status env s4) clock).1
  rcases hG : graceLoop env fps (Frac.add clock g) fg (set_job_status env s4) clock
    with ⟨s6, ge⟩
  rw [hG] at hterm hpres
  have hge : ge = GraceExit.normal := hterm
  subst hge
  refine ⟨rfl, ?_⟩
  show s6.finalizeCount + 1 = s4.finalizeCount + 1
  have hfc : s6.finalizeCount = s4.finalizeCount := hpres
  rw [hfc]

theorem finishRun_count (env : Env) (g : Frac) (fps fg : Nat) (s4 : Session)
    (clock : Frac) (henc : ∀ n, (env.encode n).isSome = true)
    (hinv : s4.log.length = goodReads env s4.readCount) :
    (finishRun env g fps fg s4 clock).s.log.length
        = goodReads env (finishRun env g fps fg s4 clock).s.readCount ∧
      (finishRun env g fps fg s4 clock).exit ≠ ExitKind.encodeError := by
  unfold finishRun
  dsimp only
  obtain ⟨h1, h2⟩ :=
    graceLoop_count env fps (Frac.add clock g) henc fg (set_job_status env s4) clock hinv
  rcases hG : graceLoop env fps (Frac.add clock g) fg (set_job_status env s4) clock
    with ⟨s6, ge⟩
  rw [hG] at h1 h2
  cases ge with
  | normal => exact ⟨h1, by intro h; cases h⟩
  | encodeError => exact absurd rfl h2
  | fpsZero => exact ⟨h1, by intro h; cases h⟩
  | fuelOut => exact ⟨h1, by intro h; cases h⟩

theorem captureRun_log (env : Env) (g ri : Frac) (fps fm fg : Nat) (s3 : Session)
    (si : Frac) :
    ∃ t, (captureRun env g ri fps fm fg s3 si).s.log = s3.log ++ t ∧
      ∀ e ∈ t,
        (e.phase = .main ∧ e.state = .building ∧ env.stop e.k = false) ∨
        (e.phase = .grace ∧ e.state = .completed ∧ env.stop e.k = false) := by
  unfold captureRun
  obtain ⟨t1, ht1, hgood1⟩ := mainLoop_log env si ri fm s3 ⟨0, 1⟩ ri
  rcases hM : mainLoop env si ri fm s3 ⟨0, 1⟩ ri with ⟨s4, me⟩
  rw [hM] at ht1
  cases me with
  | encodeError =>
    exact ⟨t1, ht1, fun e he => Or.inl (hgood1 e he)⟩
  | fuelOut =>
    exact ⟨t1, ht1, fun e he => Or.inl (hgood1 e he)⟩
  | normal clock =>
    obtain ⟨t2, ht2, hgood2⟩ := finishRun_log env g fps fg s4 clock
    refine ⟨t1 ++ t2, ?_, ?_⟩
    · rw [ht2, ht1, List.append_assoc]
    · intro e he
      rcases List.mem_append.mp he with he | he
      · exact Or.inl (hgood1 e he)
      · exact Or.inr (hgood2 e he)

theorem captureRun_pres (env : Env) (g ri : Frac) (fps fm fg : Nat) (s3 : Session)
    (si : Frac) :
    (captureRun env g ri fps fm fg s3 si).s.streamOpened = s3.streamOpened ∧
    (captureRun env g ri fps fm fg s3 si).s.outputRemoved = s3.outputRemoved := by
  unfold captureRun
  obtain ⟨-, h2, h3⟩ := mainLoop_pres env si ri fm s3 ⟨0, 1⟩ ri
  rcases hM : mainLoop env si ri fm s3 ⟨0, 1⟩ ri with ⟨s4, me⟩
  rw [hM] at h2 h3
  cases me with
  | encodeError => exact ⟨h2, h3⟩
  | fuelOut => exact ⟨h2, h3⟩
  | normal clock =>
    obtain ⟨p2, p3⟩ := finishRun_pres env g fps fg s4 clock
    exact ⟨by rw [p2, h2], by rw [p3, h3]⟩

theorem captureRun_finished (env : Env) (g ri : Frac) (fps fm fg : Nat)
    (s3 : Session) (si : Frac) (sb : Nat)
    (hstop : ∀ k, sb ≤ k → env.stop k = true)
    (henc : ∀ n, (env.encode n).isSome = true)
    (hfps : fps ≠ 0) (hfm : sb < fm) (hfg : sb < fg) :
    (captureRun env g ri fps fm fg s3 si).exit = .finished ∧
    (captureRun env g ri fps fm fg s3 si).s.finalizeCount = s3.finalizeCount + 1 := by
  unfold captureRun
  obtain ⟨c, hc⟩ := mainLoop_term env si ri sb hstop henc fm s3 ⟨0, 1⟩ ri
    (by omega) (by omega)
  have hpres := (mainLoop_pres env si ri fm s3 ⟨0, 1⟩ ri).1
  rcases hM : mainLoop env si ri fm s3 ⟨0, 1⟩ ri with ⟨s4, me⟩
  rw [hM] at hc hpres
  have hme : me = MainExit.normal c := hc
  subst hme
  obtain ⟨f1, f2⟩ := finishRun_finished env g fps fg s4 c sb hstop henc hfps hfg
  refine ⟨f1, ?_⟩
  rw [f2]
  have hfc : s4.finalizeCount = s3.finalizeCount := hpres
  rw [hfc]

theorem captureRun_count (env : Env) (g ri : Frac) (fps fm fg : Nat) (s3 : Session)
    (si : Frac) (henc : ∀ n, (env.encode n).isSome = true)
    (hinv : s3.log.length = goodReads env s3.readCount) :
    (captureRun env g ri fps fm fg s3 si).s.log.length
        = goodReads env (captureRun env g ri fps fm fg s3 si).s.readCount ∧
      (captureRun env g ri fps fm fg s3 si).exit ≠ ExitKind.encodeError := by
  unfold captureRun
  obtain ⟨h1, h2⟩ := mainLoop_count env si ri henc fm s3 ⟨0, 1⟩ ri hinv
  rcases hM : mainLoop env si ri fm s3 ⟨0, 1⟩ ri with ⟨s4, me⟩
  rw [hM] at h1 h2
  cases me with
  | encodeError => exact absurd rfl h2
  | fuelOut => exact ⟨h1, by intro h; cases h⟩
  | normal clock => exact finishRun_count env g fps fg s4 clock henc h1

theorem pacingRun_log (env : Env) (g ri : Frac) (fps frames fm fg : Nat)
    (s2 : Session) :
    ∃ t, (pacingRun env g ri fps frames fm fg s2).s.log = s2.log ++ t ∧
      ∀ e ∈ t,
        (e.phase = .main ∧ e.state = .building ∧ env.stop e.k = false) ∨
        (e.phase = .grace ∧ e.state = .completed ∧ env.stop e.k = false) := by
  unfold pacingRun
  dsimp only
  rcases hC : computeSleepInterval (set_job_status env s2).cached.totalTime
      (set_job_status env s2).cached.remainingTime frames with _ | ⟨si, w⟩
  · exact ⟨[], by simp [set_job_status], by intro e he; cases he⟩
  · exact captureRun_log env g ri fps fm fg (set_job_status env s2) si

theorem pacingRun_pres (env : Env) (g ri : Frac) (fps frames fm fg : Nat)
    (s2 : Session) :
    (pacingRun env g ri fps frames fm fg s2).s.streamOpened = s2.streamOpened ∧
    (pacingRun env g ri fps frames fm fg s2).s.outputRemoved = s2.outputRemoved := by
  unfold pacingRun
  dsimp only
  rcases hC : computeSleepInterval (set_job_status env s2).cached.totalTime
      (set_job_status env s2).cached.remainingTime frames with _ | ⟨si, w⟩
  · exact ⟨rfl, rfl⟩
  · exact captureRun_pres env g ri fps fm fg (set_job_status env s2) si

theorem pacingRun_finished (env : Env) (g ri : Frac) (fps frames fm fg : Nat)
    (s2 : Session) (sb : Nat)
    (hstop : ∀ k, sb ≤ k → env.stop k = true)
    (henc : ∀ n, (env.encode n).isSome = true)
    (hfps : fps ≠ 0) (hframes : frames ≠ 0) (hfm : sb < fm) (hfg : sb < fg) :
    (pacingRun env g ri fps frames fm fg s2).exit = .finished ∧
    (pacingRun env g ri fps frames fm fg s2).s.finalizeCount
      = s2.finalizeCount + 1 := by
  unfold pacingRun
  dsimp only
  rw [computeSleepInterval_some _ _ frames hframes]
  exact captureRun_finished env g ri fps fm fg (set_job_status env s2) _ sb
    hstop henc hfps hfm hfg

theorem pacingRun_count (env : Env) (g ri : Frac) (fps frames fm fg : Nat)
    (s2 : Session) (henc : ∀ n, (env.encode n).isSome = true)
    (hinv : s2.log.length = goodReads env s2.readCount) :
    (pacingRun env g ri fps frames fm fg s2).s.log.length
        = goodReads env (pacingRun env g ri fps frames fm fg s2).s.readCount ∧
      (pacingRun env g ri fps frames fm fg s2).exit ≠ ExitKind.encodeError := by
  unfold pacingRun
  dsimp only
  rcases hC : computeSleepInterval (set_job_status env s2).cached.totalTime
      (set_job_status env s2).cached.remainingTime frames with _ | ⟨si, w⟩
  · exact ⟨hinv, by intro h; cases h⟩
  · exact captureRun_count env g ri fps fm fg (set_job_status env s2) si henc hinv

/-! ### Whole-run lemmas -/

theorem start_timelapse_log_spec (env : Env) (g ri : Frac)
    (fps frames fw fm fg : Nat) :
    ∀ e ∈ (start_timelapse env g ri fps frames fw fm fg).s.log,
      (e.phase = .main ∧ e.state = .building ∧ env.stop e.k = false) ∨
      (e.phase = .grace ∧ e.state = .completed ∧ env.stop e.k = false) := by
  unfold start_timelapse
  dsimp only
  split
  · intro e he
    cases he
  · have hwlog := (waitLoop_pres env fw
      { initialSession env with streamOpened := true, outputRemoved := true }).1
    rcases hW : waitLoop env fw
        { initialSession env with streamOpened := true, outputRemoved := true }
      with ⟨s2, b⟩
    rw [hW] at hwlog
    cases b with
    | false =>
      intro e he
      have hs2 : s2.log = [] := hwlog
      rw [hs2] at he
      cases he
    | true =>
      intro e he
      obtain ⟨t, ht, hgood⟩ := pacingRun_log env g ri fps frames fm fg s2
      rw [ht] at he
      have hs2 : s2.log = [] := hwlog
      rw [hs2] at he
      rcases List.mem_append.mp he with he | he
      · cases he
      · exact hgood e he

theorem start_timelapse_finished (env : Env) (g ri : Frac)
    (fps frames sb fw fm fg : Nat)
    (hstop : ∀ k, sb ≤ k → env.stop k = true)
    (hbusy : (env.polls 0).state.isBusy = true)
    (henc : ∀ n, (env.encode n).isSome = true)
    (hfps : fps ≠ 0) (hframes : frames ≠ 0)
    (hfw : sb < fw) (hfm : sb < fm) (hfg : sb < fg) :
    (start_timelapse env g ri fps frames fw fm fg).exit = .finished ∧
    (start_timelapse env g ri fps frames fw fm fg).s.finalizeCount = 1 := by
  unfold start_timelapse
  dsimp only
  split
  case isTrue hb =>
    have : (initialSession env).cached.state.isBusy = true := hbusy
    rw [this] at hb
    cases hb
  case isFalse hb =>
    have hwterm := waitLoop_term env sb hstop fw
      { initialSession env with streamOpened := true, outputRemoved := true }
      (by show sb < 0 + fw; omega) (by omega)
    have hwfin := (waitLoop_pres env fw
      { initialSession env with streamOpened := true, outputRemoved := true }).2.2.1
    rcases hW : waitLoop env fw
        { initialSession env with streamOpened := true, outputRemoved := true }
      with ⟨s2, b⟩
    rw [hW] at hwterm hwfin
    have hb2 : b = true := hwterm
    subst hb2
    obtain ⟨p1, p2⟩ := pacingRun_finished env g ri fps frames fm fg s2 sb
      hstop henc hfps hframes hfm hfg
    refine ⟨p1, ?_⟩
    rw [p2]
    have hfc : s2.finalizeCount = 0 := hwfin
    rw [hfc]

theorem start_timelapse_count (env : Env) (g ri : Frac)
    (fps frames fw fm fg : Nat)
    (henc : ∀ n, (env.encode n).isSome = true) :
    (start_timelapse env g ri fps frames fw fm fg).s.log.length
        = goodReads env (start_timelapse env g ri fps frames fw fm fg).s.readCount ∧
      (start_timelapse env g ri fps frames fw fm fg).exit
        ≠ ExitKind.encodeError := by
  unfold start_timelapse
  dsimp only
  split
  · exact ⟨rfl, by intro h; cases h⟩
  · have hwlog := (waitLoop_pres env fw
      { initialSession env with streamOpened := true, outputRemoved := true }).1
    have hwrc := (waitLoop_pres env fw
      { initialSession env with streamOpened := true, outputRemoved := true }).2.1
    rcases hW : waitLoop env fw
        { initialSession env with streamOpened := true, outputRemoved := true }
      with ⟨s2, b⟩
    rw [hW] at hwlog hwrc
    cases b with
    | false =>
      refine ⟨?_, by intro h; cases h⟩
      have h1 : s2.log = [] := hwlog
      have h2 : s2.readCount = 0 := hwrc
      rw [h1, h2]
      rfl
    | true =>
      refine pacingRun_count env g ri fps frames fm fg s2 henc ?_
      have h1 : s2.log = [] := hwlog
      have h2 : s2.readCount = 0 := hwrc
      rw [h1, h2]
      rfl

/-! ### Claim theorems -/

/-- C1: the claim says the capture loop stops appending frames once the
cumulative size estimate reaches `maxOutputSizeMB`.  The code has no size
accounting at all: running the embedded `start_timelapse` over a job that
stays in `Building` for three paced ticks, with every appended frame one
size unit, appends all three frames, so the written size (3 units) exceeds
a one-unit cap and the run still finishes normally.  This evaluates the
code at the failing input of the `code_bug` record. -/
theorem size_cap_not_enforced :
    (start_timelapse envSteady ⟨0, 1⟩ ⟨1, 1⟩ 10 3 1 6 1).exit = ExitKind.finished ∧
    bytesWritten (start_timelapse envSteady ⟨0, 1⟩ ⟨1, 1⟩ 10 3 1 6 1).s.log = 3 ∧
    1 < bytesWritten (start_timelapse envSteady ⟨0, 1⟩ ⟨1, 1⟩ 10 3 1 6 1).s.log := by
  decide

/-- C2: in every run of `start_timelapse`, over every environment, a frame
is appended only while the cached job state is `Building` (in the main
capture loop) or `Completed` (in the post-completion grace loop); in
particular no frame is ever appended while the state is `Preparing`,
`Pausing`, `Paused`, or `Resuming`. -/
theorem frames_only_while_building_or_completed (env : Env) (g ri : Frac)
    (fps frames fw fm fg : Nat) :
    ((start_timelapse env g ri fps frames fw fm fg).s.log.all fun e =>
      (decide (e.phase = Phase.main) && decide (e.state = JobState.building))
        || (decide (e.phase = Phase.grace) && decide (e.state = JobState.completed)))
      = true := by
  rw [List.all_eq_true]
  intro e he
  rcases start_timelapse_log_spec env g ri fps frames fw fm fg e he with
    ⟨h1, h2, -⟩ | ⟨h1, h2, -⟩
  · simp [h1, h2]
  · simp [h1, h2]

/-- C3: the pacing interval is computed once, at entry to capturing, as
`max(totalTime, remainingTime) / gif_total_frames`; when both times are
zero the computation substitutes the `60 * 60`-second default and reports
it as a warning (the Bool), returning normally rather than raising, and
the effective total time is never zero. -/
theorem pacing_interval_fallback (t r n : Nat) (hn : n ≠ 0) :
    computeSleepInterval t r n
      = some (⟨(if max t r = 0 then 60 * 60 else max t r), n⟩,
          if max t r = 0 then true else false) ∧
    (if max t r = 0 then 60 * 60 else max t r) ≠ 0 := by
  refine ⟨computeSleepInterval_some t r n hn, ?_⟩
  by_cases h : max t r = 0
  · rw [if_pos h]
    omega
  · rw [if_neg h]
    exact h

/-- Witness for C3 at `totalTime = 0`, `remainingTime = 0`,
`gif_total_frames = 100`. -/
theorem pacing_interval_fallback_witness :
    computeSleepInterval 0 0 100
      = some (⟨(if max 0 0 = 0 then 60 * 60 else max 0 0), 100⟩,
          if max 0 0 = 0 then true else false) ∧
    (if max 0 0 = 0 then 60 * 60 else max 0 0) ≠ 0 :=
  pacing_interval_fallback 0 0 100 (by decide)

set_option maxRecDepth 100000 in
/-- C4: with `totalTime = 3600` and `gif_total_frames = 100` the pacing
interval is `3600/100 = 36` seconds, and a run over a printer that stays
busy and building for 100 paced ticks with every frame read succeeding
writes exactly 100 frames and finishes normally. -/
theorem pacing_example_hundred_frames :
    computeSleepInterval 3600 0 100 = some (⟨3600, 100⟩, false) ∧
    Frac.eqv ⟨3600, 100⟩ ⟨36, 1⟩ ∧
    (start_timelapse envBuilding100 ⟨0, 1⟩ ⟨36, 1⟩ 10 100 1 110 1).s.log.length
      = 100 ∧
    (start_timelapse envBuilding100 ⟨0, 1⟩ ⟨36, 1⟩ 10 100 1 110 1).exit
      = ExitKind.finished := by
  decide

/-- C5: if the refreshed status after the initial grace delay reports the
printer not busy, `start_timelapse` fails at once with the not-printing
`RuntimeError`: no stream handle is opened, the output path is not
touched, and no frame is appended. -/
theorem not_busy_fails_fast (env : Env) (g ri : Frac) (fps frames fw fm fg : Nat)
    (h : (env.polls 0).state.isBusy = false) :
    (start_timelapse env g ri fps frames fw fm fg).exit = ExitKind.notPrinting ∧
    (start_timelapse env g ri fps frames fw fm fg).s.streamOpened = false ∧
    (start_timelapse env g ri fps frames fw fm fg).s.outputRemoved = false ∧
    (start_timelapse env g ri fps frames fw fm fg).s.log = [] := by
  unfold start_timelapse
  dsimp only
  have h0 : (initialSession env).cached.state.isBusy = false := h
  rw [if_pos h0]
  exact ⟨rfl, rfl, rfl, rfl⟩

/-- Witness for C5 on a printer that is always idle. -/
theorem not_busy_fails_fast_witness :
    (start_timelapse envIdle ⟨0, 1⟩ ⟨1, 1⟩ 10 100 1 1 1).exit
      = ExitKind.notPrinting ∧
    (start_timelapse envIdle ⟨0, 1⟩ ⟨1, 1⟩ 10 100 1 1 1).s.streamOpened = false ∧
    (start_timelapse envIdle ⟨0, 1⟩ ⟨1, 1⟩ 10 100 1 1 1).s.outputRemoved = false ∧
    (start_timelapse envIdle ⟨0, 1⟩ ⟨1, 1⟩ 10 100 1 1 1).s.log = [] :=
  not_busy_fails_fast envIdle ⟨0, 1⟩ ⟨1, 1⟩ 10 100 1 1 1 rfl

/-- C6: once the stop flag is raised (true from suspension point `sb` on),
a capture session that started on a busy printer and suffers no encode
exception finishes: every loop exits at its next flag check (given fuel
beyond `sb`), every appended frame predates the flag, and the
finalization of lines 108-110 (`cap.release()` plus `writer.close()`)
runs exactly once. -/
theorem stop_signal_halts_capture (env : Env) (g ri : Frac)
    (fps frames sb fw fm fg : Nat)
    (hstop : ∀ k, sb ≤ k → env.stop k = true)
    (hbusy : (env.polls 0).state.isBusy = true)
    (henc : ∀ n, (env.encode n).isSome = true)
    (hfps : fps ≠ 0) (hframes : frames ≠ 0)
    (hfw : sb < fw) (hfm : sb < fm) (hfg : sb < fg) :
    (start_timelapse env g ri fps frames fw fm fg).exit = ExitKind.finished ∧
    (start_timelapse env g ri fps frames fw fm fg).s.finalizeCount = 1 ∧
    ((start_timelapse env g ri fps frames fw fm fg).s.log.all fun e =>
      decide (e.k < sb)) = true := by
  obtain ⟨h1, h2⟩ := start_timelapse_finished env g ri fps frames sb fw fm fg
    hstop hbusy henc hfps hframes hfw hfm hfg
  refine ⟨h1, h2, ?_⟩
  rw [List.all_eq_true]
  intro e he
  rcases start_timelapse_log_spec env g ri fps frames fw fm fg e he with
    ⟨-, -, h3⟩ | ⟨-, -, h3⟩ <;>
  · simp only [decide_eq_true_eq]
    by_contra hge
    have h4 := hstop e.k (by omega)
    rw [h3] at h4
    cases h4

/-- Witness for C6: the stop flag raised after the first pacing sleep of an
always-building job. -/
theorem stop_signal_halts_capture_witness :
    (start_timelapse envStopAfter1 ⟨1, 1⟩ ⟨5, 1⟩ 10 10 2 2 2).exit
      = ExitKind.finished ∧
    (start_timelapse envStopAfter1 ⟨1, 1⟩ ⟨5, 1⟩ 10 10 2 2 2).s.finalizeCount = 1 ∧
    ((start_timelapse envStopAfter1 ⟨1, 1⟩ ⟨5, 1⟩ 10 10 2 2 2).s.log.all fun e =>
      decide (e.k < 1)) = true :=
  stop_signal_halts_capture envStopAfter1 ⟨1, 1⟩ ⟨5, 1⟩ 10 10 1 2 2 2
    (fun k hk => decide_eq_true hk) rfl (fun _ => rfl)
    (by decide) (by decide) (by decide) (by decide) (by decide)

/-- C7 counterexample: a single frame whose read succeeds but whose encode
step raises aborts the whole session with the propagated exception and
zero frames written — refuting the claim that a failed encode merely skips
the tick and the loop continues. -/
theorem encode_failure_aborts_session :
    (start_timelapse envEncodeFail ⟨0, 1⟩ ⟨1, 1⟩ 10 1 1 2 1).exit
      = ExitKind.encodeError ∧
    (start_timelapse envEncodeFail ⟨0, 1⟩ ⟨1, 1⟩ 10 1 1 2 1).s.log.length = 0 := by
  decide

/-- C7 as amended: when no encode step raises, a read that returns no data
or an empty frame merely skips its tick — the session never aborts with an
encode error and the number of appended frames equals exactly the number
of reads that passed the `ret and np.size(frame) > 0` guard. -/
theorem read_failures_never_abort (env : Env) (g ri : Frac)
    (fps frames fw fm fg : Nat)
    (henc : ∀ n, (env.encode n).isSome = true) :
    (start_timelapse env g ri fps frames fw fm fg).exit ≠ ExitKind.encodeError ∧
    (start_timelapse env g ri fps frames fw fm fg).s.log.length
      = goodReads env (start_timelapse env g ri fps frames fw fm fg).s.readCount := by
  obtain ⟨h1, h2⟩ := start_timelapse_count env g ri fps frames fw fm fg henc
  exact ⟨h2, h1⟩

/-- Witness for the amended C7: four read attempts of which one returns no
data and one an empty frame; the run finishes with two appended frames. -/
theorem read_failures_never_abort_witness :
    (start_timelapse envMixedReads ⟨0, 1⟩ ⟨1, 1⟩ 10 4 1 7 1).exit
      ≠ ExitKind.encodeError ∧
    (start_timelapse envMixedReads ⟨0, 1⟩ ⟨1, 1⟩ 10 4 1 7 1).s.log.length
      = goodReads envMixedReads
          (start_timelapse envMixedReads ⟨0, 1⟩ ⟨1, 1⟩ 10 4 1 7 1).s.readCount :=
  read_failures_never_abort envMixedReads ⟨0, 1⟩ ⟨1, 1⟩ 10 4 1 7 1 (fun _ => rfl)

/-- C8: the claim says snapshot mode performs exactly one frame capture
and exactly one file write for every job state.  In the code it performs
neither: the construction at main.py line 312 passes two positional
arguments to a `Dremel3D45Timelapse.__init__` that accepts one besides
`self`, so Python raises `TypeError` there; and even past that,
`make_snapshot`'s lookup of `camera.get_snapshot_img` raises
`AttributeError` — zero captures and zero writes, whatever the resolved
method would have done — because the class defines no such method.  This
evaluates the code at the failing input of the `code_bug` record. -/
theorem snapshot_mode_cannot_run (run : Unit → SnapshotEffects) :
    callBinds timelapse_init_required timelapse_init_params.length
        timelapse_ctor_args.length = false ∧
    timelapse_class_methods.contains "get_snapshot_img" = false ∧
    make_snapshot timelapse_class_methods run
      = { captures := 0, writes := 0, raised := true } := by
  refine ⟨by decide, by decide, ?_⟩
  unfold make_snapshot
  rw [if_neg
    (by decide : ¬timelapse_class_methods.contains "get_snapshot_img" = true)]

/-- C9: the gif-mode call from `make_gif` to `camera.start_timelapse`
passes nine positional arguments while the `start_timelapse` defined in
camera.py accepts at most three besides `self`, so the call cannot bind
and Python raises `TypeError` before any capture begins — the claim that
the call is well-formed is refuted by the code itself. -/
theorem make_gif_call_does_not_bind :
    callBinds start_timelapse_required start_timelapse_params.length
        make_gif_args.length = false ∧
    make_gif_args.length = 9 ∧
    start_timelapse_params.length = 3 := by
  decide

/-- C10: none of the six names camera.py imports from
`dremel3dpy.helpers.constants`, and none of the six names main.py imports
from it, is defined in constants.py, so both imports raise `ImportError`
— refuting the claim that every imported name is defined and both modules
load. -/
theorem constants_imports_unresolved :
    (camera_imported_names.all fun n => constants_defined_names.contains n)
        = false ∧
    (main_imported_names.all fun n => constants_defined_names.contains n)
        = false ∧
    constants_defined_names.contains "GIF_DEFAULT_FPS" = false ∧
    constants_defined_names.contains "EXIT_SIGNALS" = false := by
  decide

end Dremel
